import Mathlib

/-!
# SpeedTestHackathon — verified model of the discovery-and-transfer protocol

A shallow embedding of the protocol core of the network speed test
(`Constants.py`, `NetworkSpeedTest_Server.py`, `NetworkSpeedTest_Client.py`):
the big-endian wire codec, the per-datagram validation performed at each
receive site, the server's UDP segmenter and TCP chunked sender, the client's
discovery loop and UDP receive loop, and the statistics computed at the end of
a transfer.

Modelling conventions:
* raw datagrams are `List ℕ` with each element one byte (values < 256 where
  produced by the encoders);
* wall-clock instants and float-valued statistics are modelled as exact
  rationals (`ℚ`); every concrete value appearing in the statements below is
  exactly representable as an IEEE double, so the rational model agrees with
  the Python float computation on them;
* each blocking receive loop is modelled as a function over a finite trace of
  loop-iteration events (a datagram arriving, or the per-receive timeout
  firing), returning `none` when the trace ends with the loop still waiting.
-/

namespace SpeedTest

/-! ## Constants (`Constants.py`) -/

def MAGIC_COOKIE : ℕ := 0xabcddcba

def MSG_TYPE_OFFER : ℕ := 0x2

def MSG_TYPE_REQUEST : ℕ := 0x3

def MSG_TYPE_PAYLOAD : ℕ := 0x4

def UDP_PAYLOAD_SIZE : ℕ := 1024

def TCP_RECEIVE_BUFFER_SIZE : ℕ := 4096

/-- The 1.0-second `UDP_TRANSFER_TIMEOUT`, as an exact rational. -/
def UDP_TRANSFER_TIMEOUT : ℚ := 1

/-! ## Big-endian byte codec (`struct.pack`/`struct.unpack` with `"!"`) -/

/-- Big-endian encoding of `n` into exactly `w` bytes (`struct.pack`
field-by-field; values are reduced mod `256 ^ w`, and the theorems below add
the range hypotheses under which Python's `struct.pack` accepts the value). -/
def toBytesBE : ℕ → ℕ → List ℕ
  | 0, _ => []
  | w + 1, n => toBytesBE w (n / 256) ++ [n % 256]

/-- Big-endian decoding of a byte list (`struct.unpack` field-by-field). -/
def fromBytesBE (bs : List ℕ) : ℕ :=
  bs.foldl (fun acc b => acc * 256 + b) 0

theorem length_toBytesBE (w : ℕ) : ∀ n, (toBytesBE w n).length = w := by
  induction w with
  | zero => intro n; simp [toBytesBE]
  | succ w ih => intro n; simp [toBytesBE, ih]

theorem fromBytesBE_append_singleton (bs : List ℕ) (b : ℕ) :
    fromBytesBE (bs ++ [b]) = fromBytesBE bs * 256 + b := by
  simp [fromBytesBE, List.foldl_append]

theorem fromBytesBE_toBytesBE (w : ℕ) :
    ∀ n, fromBytesBE (toBytesBE w n) = n % 256 ^ w := by
  induction w with
  | zero => intro n; simp [toBytesBE, fromBytesBE, Nat.mod_one]
  | succ w ih =>
    intro n
    rw [toBytesBE, fromBytesBE_append_singleton, ih]
    have hp : (256 : ℕ) ^ (w + 1) = 256 * 256 ^ w := by ring
    rw [hp, Nat.mod_mul]
    ring

/-! ## Message encoders

`broadcast_offers` (server), `handle_udp_transfer` (client request,
server payload header). -/

/-- The 9-byte Offer packet built in `SpeedTestServer.broadcast_offers` as
`struct.pack(OFFER_STRUCT_FORMAT, MAGIC_COOKIE, MSG_TYPE_OFFER, udp, tcp)`. -/
def packOffer (udpPort tcpPort : ℕ) : List ℕ :=
  toBytesBE 4 MAGIC_COOKIE ++ toBytesBE 1 MSG_TYPE_OFFER ++
    toBytesBE 2 udpPort ++ toBytesBE 2 tcpPort

/-- The 13-byte Request packet built in `SpeedTestClient.handle_udp_transfer` as
`struct.pack(REQUEST_STRUCT_FORMAT, MAGIC_COOKIE, MSG_TYPE_REQUEST, file_size)`. -/
def packRequest (fileSize : ℕ) : List ℕ :=
  toBytesBE 4 MAGIC_COOKIE ++ toBytesBE 1 MSG_TYPE_REQUEST ++ toBytesBE 8 fileSize

/-- The 21-byte payload header built in `SpeedTestServer.handle_udp_transfer` as
`struct.pack(PAYLOAD_STRUCT_FORMAT, MAGIC_COOKIE, MSG_TYPE_PAYLOAD, total, cur)`. -/
def packPayloadHeader (totalSegments currentSegment : ℕ) : List ℕ :=
  toBytesBE 4 MAGIC_COOKIE ++ toBytesBE 1 MSG_TYPE_PAYLOAD ++
    toBytesBE 8 totalSegments ++ toBytesBE 8 currentSegment

/-! ## Message decoders

Python's `struct.unpack(fmt, buf)` demands `len(buf) == calcsize(fmt)` exactly
and raises `struct.error` otherwise; the decoders model that by returning
`none` on any other length. -/

/-- Decoding `struct.unpack(OFFER_STRUCT_FORMAT, data)`: cookie, type, udp port,
tcp port. -/
def unpackOffer (data : List ℕ) : Option (ℕ × ℕ × ℕ × ℕ) :=
  if data.length = 9 then
    some (fromBytesBE (data.take 4), fromBytesBE ((data.drop 4).take 1),
      fromBytesBE ((data.drop 5).take 2), fromBytesBE ((data.drop 7).take 2))
  else none

/-- Decoding `struct.unpack(REQUEST_STRUCT_FORMAT, data)`: cookie, type, file size. -/
def unpackRequest (data : List ℕ) : Option (ℕ × ℕ × ℕ) :=
  if data.length = 13 then
    some (fromBytesBE (data.take 4), fromBytesBE ((data.drop 4).take 1),
      fromBytesBE (data.drop 5))
  else none

/-- Decoding `struct.unpack(PAYLOAD_STRUCT_FORMAT, data)`: cookie, type, total
segments, current segment. -/
def unpackPayloadHeader (data : List ℕ) : Option (ℕ × ℕ × ℕ × ℕ) :=
  if data.length = 21 then
    some (fromBytesBE (data.take 4), fromBytesBE ((data.drop 4).take 1),
      fromBytesBE ((data.drop 5).take 8), fromBytesBE ((data.drop 13).take 8))
  else none

/-! ## Per-datagram validation at each receive site -/

/-- One iteration of `SpeedTestServer.listen_udp_requests` applied to a received
datagram: `some file_size` when a transfer thread is spawned for it, `none`
when the datagram is dropped (too short, wrong length for `struct.unpack`
— whose `struct.error` the surrounding `except` swallows — or cookie/type
mismatch). -/
def serverUdpRequestAccept (data : List ℕ) : Option ℕ :=
  if 13 ≤ data.length then
    match unpackRequest data with
    | some (mc, mt, fileSize) =>
      if mc = MAGIC_COOKIE ∧ mt = MSG_TYPE_REQUEST then some fileSize else none
    | none => none
  else none

/-- Outcome of one received datagram inside `SpeedTestClient.listen_for_offer`. -/
inductive OfferScan where
  /-- Datagram ignored (too short, or cookie/type mismatch); the loop continues. -/
  | keepWaiting
  /-- Unpacking raised `struct.error` (length > 9); the generic `except Exception`
  handler makes the whole attempt return `None`. -/
  | abort
  /-- Validated Offer: the advertised UDP and TCP ports. -/
  | accept (udpPort tcpPort : ℕ)
  deriving DecidableEq

/-- Validation of one datagram in `SpeedTestClient.listen_for_offer`. -/
def clientOfferScan (data : List ℕ) : OfferScan :=
  if 9 ≤ data.length then
    match unpackOffer data with
    | some (mc, mt, udpPort, tcpPort) =>
      if mc = MAGIC_COOKIE ∧ mt = MSG_TYPE_OFFER then .accept udpPort tcpPort
      else .keepWaiting
    | none => .abort
  else .keepWaiting

/-- Validation of one datagram in `SpeedTestClient.handle_udp_transfer`:
`some (total_seg, current_seg, payload byte count)` when the datagram is a
valid PayloadSegment (length ≥ 21, the first 21 bytes are sliced off and
unpacked, cookie and type match); `none` when it is discarded. -/
def clientPayloadAccept (data : List ℕ) : Option (ℕ × ℕ × ℕ) :=
  if data.length < 21 then none
  else
    match unpackPayloadHeader (data.take 21) with
    | some (mc, mt, totalSeg, currentSeg) =>
      if mc = MAGIC_COOKIE ∧ mt = MSG_TYPE_PAYLOAD then
        some (totalSeg, currentSeg, data.length - 21)
      else none
    | none => none

/-! ## Round-trip lemmas for the codec -/

theorem length_packOffer (udpPort tcpPort : ℕ) : (packOffer udpPort tcpPort).length = 9 := by
  simp [packOffer, length_toBytesBE]

theorem length_packRequest (fileSize : ℕ) : (packRequest fileSize).length = 13 := by
  simp [packRequest, length_toBytesBE]

theorem length_packPayloadHeader (totalSegments currentSegment : ℕ) :
    (packPayloadHeader totalSegments currentSegment).length = 21 := by
  simp [packPayloadHeader, length_toBytesBE]

theorem unpackOffer_packOffer (udpPort tcpPort : ℕ)
    (hu : udpPort < 2 ^ 16) (ht : tcpPort < 2 ^ 16) :
    unpackOffer (packOffer udpPort tcpPort) =
      some (MAGIC_COOKIE, MSG_TYPE_OFFER, udpPort, tcpPort) := by
  have hA := length_toBytesBE 4 MAGIC_COOKIE
  have hB := length_toBytesBE 1 MSG_TYPE_OFFER
  have hC := length_toBytesBE 2 udpPort
  have hD := length_toBytesBE 2 tcpPort
  have hassoc : packOffer udpPort tcpPort =
      toBytesBE 4 MAGIC_COOKIE ++ (toBytesBE 1 MSG_TYPE_OFFER ++
        (toBytesBE 2 udpPort ++ toBytesBE 2 tcpPort)) := by
    simp [packOffer, List.append_assoc]
  have e1 : (toBytesBE 4 MAGIC_COOKIE ++ (toBytesBE 1 MSG_TYPE_OFFER ++
      (toBytesBE 2 udpPort ++ toBytesBE 2 tcpPort))).take 4 =
      toBytesBE 4 MAGIC_COOKIE := List.take_left' hA
  have e2 : ((toBytesBE 4 MAGIC_COOKIE ++ (toBytesBE 1 MSG_TYPE_OFFER ++
      (toBytesBE 2 udpPort ++ toBytesBE 2 tcpPort))).drop 4).take 1 =
      toBytesBE 1 MSG_TYPE_OFFER := by
    rw [List.drop_left' hA, List.take_left' hB]
  have e3 : ((toBytesBE 4 MAGIC_COOKIE ++ (toBytesBE 1 MSG_TYPE_OFFER ++
      (toBytesBE 2 udpPort ++ toBytesBE 2 tcpPort))).drop 5).take 2 =
      toBytesBE 2 udpPort := by
    have h5 : (toBytesBE 4 MAGIC_COOKIE ++ toBytesBE 1 MSG_TYPE_OFFER).length = 5 := by
      simp [hA, hB]
    rw [show toBytesBE 4 MAGIC_COOKIE ++ (toBytesBE 1 MSG_TYPE_OFFER ++
        (toBytesBE 2 udpPort ++ toBytesBE 2 tcpPort)) =
        (toBytesBE 4 MAGIC_COOKIE ++ toBytesBE 1 MSG_TYPE_OFFER) ++
        (toBytesBE 2 udpPort ++ toBytesBE 2 tcpPort) by simp [List.append_assoc]]
    rw [List.drop_left' h5, List.take_left' hC]
  have e4 : ((toBytesBE 4 MAGIC_COOKIE ++ (toBytesBE 1 MSG_TYPE_OFFER ++
      (toBytesBE 2 udpPort ++ toBytesBE 2 tcpPort))).drop 7).take 2 =
      toBytesBE 2 tcpPort := by
    have h7 : ((toBytesBE 4 MAGIC_COOKIE ++ toBytesBE 1 MSG_TYPE_OFFER) ++
        toBytesBE 2 udpPort).length = 7 := by simp [hA, hB, hC]
    rw [show toBytesBE 4 MAGIC_COOKIE ++ (toBytesBE 1 MSG_TYPE_OFFER ++
        (toBytesBE 2 udpPort ++ toBytesBE 2 tcpPort)) =
        ((toBytesBE 4 MAGIC_COOKIE ++ toBytesBE 1 MSG_TYPE_OFFER) ++
          toBytesBE 2 udpPort) ++ toBytesBE 2 tcpPort by simp [List.append_assoc]]
    rw [List.drop_left' h7]
    exact List.take_of_length_le (le_of_eq hD)
  have hmc : MAGIC_COOKIE % 256 ^ 4 = MAGIC_COOKIE := by norm_num [MAGIC_COOKIE]
  have hmt : MSG_TYPE_OFFER % 256 ^ 1 = MSG_TYPE_OFFER := by norm_num [MSG_TYPE_OFFER]
  have hu2 : udpPort % 256 ^ 2 = udpPort := Nat.mod_eq_of_lt (lt_of_lt_of_le hu (by norm_num))
  have ht2 : tcpPort % 256 ^ 2 = tcpPort := Nat.mod_eq_of_lt (lt_of_lt_of_le ht (by norm_num))
  rw [hassoc, unpackOffer, if_pos (by rw [← hassoc]; exact length_packOffer udpPort tcpPort),
    e1, e2, e3, e4, fromBytesBE_toBytesBE, fromBytesBE_toBytesBE,
    fromBytesBE_toBytesBE, fromBytesBE_toBytesBE, hmc, hmt, hu2, ht2]

theorem unpackRequest_packRequest (fileSize : ℕ) (hf : fileSize < 2 ^ 64) :
    unpackRequest (packRequest fileSize) =
      some (MAGIC_COOKIE, MSG_TYPE_REQUEST, fileSize) := by
  have hA := length_toBytesBE 4 MAGIC_COOKIE
  have hB := length_toBytesBE 1 MSG_TYPE_REQUEST
  have hassoc : packRequest fileSize =
      toBytesBE 4 MAGIC_COOKIE ++ (toBytesBE 1 MSG_TYPE_REQUEST ++ toBytesBE 8 fileSize) := by
    simp [packRequest, List.append_assoc]
  have e1 : (toBytesBE 4 MAGIC_COOKIE ++ (toBytesBE 1 MSG_TYPE_REQUEST ++
      toBytesBE 8 fileSize)).take 4 = toBytesBE 4 MAGIC_COOKIE :=
    List.take_left' hA
  have e2 : ((toBytesBE 4 MAGIC_COOKIE ++ (toBytesBE 1 MSG_TYPE_REQUEST ++
      toBytesBE 8 fileSize)).drop 4).take 1 = toBytesBE 1 MSG_TYPE_REQUEST := by
    rw [List.drop_left' hA, List.take_left' hB]
  have e3 : (toBytesBE 4 MAGIC_COOKIE ++ (toBytesBE 1 MSG_TYPE_REQUEST ++
      toBytesBE 8 fileSize)).drop 5 = toBytesBE 8 fileSize := by
    have h5 : (toBytesBE 4 MAGIC_COOKIE ++ toBytesBE 1 MSG_TYPE_REQUEST).length = 5 := by
      simp [hA, hB]
    rw [show toBytesBE 4 MAGIC_COOKIE ++ (toBytesBE 1 MSG_TYPE_REQUEST ++
        toBytesBE 8 fileSize) =
        (toBytesBE 4 MAGIC_COOKIE ++ toBytesBE 1 MSG_TYPE_REQUEST) ++
        toBytesBE 8 fileSize by simp [List.append_assoc]]
    exact List.drop_left' h5
  have hmc : MAGIC_COOKIE % 256 ^ 4 = MAGIC_COOKIE := by norm_num [MAGIC_COOKIE]
  have hmt : MSG_TYPE_REQUEST % 256 ^ 1 = MSG_TYPE_REQUEST := by norm_num [MSG_TYPE_REQUEST]
  have hf2 : fileSize % 256 ^ 8 = fileSize := Nat.mod_eq_of_lt (lt_of_lt_of_le hf (by norm_num))
  rw [hassoc, unpackRequest, if_pos (by rw [← hassoc]; exact length_packRequest fileSize),
    e1, e2, e3, fromBytesBE_toBytesBE, fromBytesBE_toBytesBE, fromBytesBE_toBytesBE,
    hmc, hmt, hf2]

theorem unpackPayloadHeader_packPayloadHeader (totalSegments currentSegment : ℕ)
    (hts : totalSegments < 2 ^ 64) (hcs : currentSegment < 2 ^ 64) :
    unpackPayloadHeader (packPayloadHeader totalSegments currentSegment) =
      some (MAGIC_COOKIE, MSG_TYPE_PAYLOAD, totalSegments, currentSegment) := by
  have hA := length_toBytesBE 4 MAGIC_COOKIE
  have hB := length_toBytesBE 1 MSG_TYPE_PAYLOAD
  have hC := length_toBytesBE 8 totalSegments
  have hD := length_toBytesBE 8 currentSegment
  have hassoc : packPayloadHeader totalSegments currentSegment =
      toBytesBE 4 MAGIC_COOKIE ++ (toBytesBE 1 MSG_TYPE_PAYLOAD ++
        (toBytesBE 8 totalSegments ++ toBytesBE 8 currentSegment)) := by
    simp [packPayloadHeader, List.append_assoc]
  have e1 : (toBytesBE 4 MAGIC_COOKIE ++ (toBytesBE 1 MSG_TYPE_PAYLOAD ++
      (toBytesBE 8 totalSegments ++ toBytesBE 8 currentSegment))).take 4 =
      toBytesBE 4 MAGIC_COOKIE := List.take_left' hA
  have e2 : ((toBytesBE 4 MAGIC_COOKIE ++ (toBytesBE 1 MSG_TYPE_PAYLOAD ++
      (toBytesBE 8 totalSegments ++ toBytesBE 8 currentSegment))).drop 4).take 1 =
      toBytesBE 1 MSG_TYPE_PAYLOAD := by
    rw [List.drop_left' hA, List.take_left' hB]
  have e3 : ((toBytesBE 4 MAGIC_COOKIE ++ (toBytesBE 1 MSG_TYPE_PAYLOAD ++
      (toBytesBE 8 totalSegments ++ toBytesBE 8 currentSegment))).drop 5).take 8 =
      toBytesBE 8 totalSegments := by
    have h5 : (toBytesBE 4 MAGIC_COOKIE ++ toBytesBE 1 MSG_TYPE_PAYLOAD).length = 5 := by
      simp [hA, hB]
    rw [show toBytesBE 4 MAGIC_COOKIE ++ (toBytesBE 1 MSG_TYPE_PAYLOAD ++
        (toBytesBE 8 totalSegments ++ toBytesBE 8 currentSegment)) =
        (toBytesBE 4 MAGIC_COOKIE ++ toBytesBE 1 MSG_TYPE_PAYLOAD) ++
        (toBytesBE 8 totalSegments ++ toBytesBE 8 currentSegment) by simp [List.append_assoc]]
    rw [List.drop_left' h5, List.take_left' hC]
  have e4 : ((toBytesBE 4 MAGIC_COOKIE ++ (toBytesBE 1 MSG_TYPE_PAYLOAD ++
      (toBytesBE 8 totalSegments ++ toBytesBE 8 currentSegment))).drop 13).take 8 =
      toBytesBE 8 currentSegment := by
    have h13 : ((toBytesBE 4 MAGIC_COOKIE ++ toBytesBE 1 MSG_TYPE_PAYLOAD) ++
        toBytesBE 8 totalSegments).length = 13 := by simp [hA, hB, hC]
    rw [show toBytesBE 4 MAGIC_COOKIE ++ (toBytesBE 1 MSG_TYPE_PAYLOAD ++
        (toBytesBE 8 totalSegments ++ toBytesBE 8 currentSegment)) =
        ((toBytesBE 4 MAGIC_COOKIE ++ toBytesBE 1 MSG_TYPE_PAYLOAD) ++
          toBytesBE 8 totalSegments) ++ toBytesBE 8 currentSegment by
      simp [List.append_assoc]]
    rw [List.drop_left' h13]
    exact List.take_of_length_le (le_of_eq hD)
  have hmc : MAGIC_COOKIE % 256 ^ 4 = MAGIC_COOKIE := by norm_num [MAGIC_COOKIE]
  have hmt : MSG_TYPE_PAYLOAD % 256 ^ 1 = MSG_TYPE_PAYLOAD := by norm_num [MSG_TYPE_PAYLOAD]
  have hts2 : totalSegments % 256 ^ 8 = totalSegments :=
    Nat.mod_eq_of_lt (lt_of_lt_of_le hts (by norm_num))
  have hcs2 : currentSegment % 256 ^ 8 = currentSegment :=
    Nat.mod_eq_of_lt (lt_of_lt_of_le hcs (by norm_num))
  rw [hassoc, unpackPayloadHeader,
    if_pos (by rw [← hassoc]; exact length_packPayloadHeader totalSegments currentSegment),
    e1, e2, e3, e4, fromBytesBE_toBytesBE, fromBytesBE_toBytesBE,
    fromBytesBE_toBytesBE, fromBytesBE_toBytesBE, hmc, hmt, hts2, hcs2]

/-- A full payload datagram (header + dummy data) is accepted by the client's
receive-loop validation, recovering both counters and the payload length. -/
theorem clientPayloadAccept_pack (totalSegments currentSegment : ℕ)
    (hts : totalSegments < 2 ^ 64) (hcs : currentSegment < 2 ^ 64) (payload : List ℕ) :
    clientPayloadAccept (packPayloadHeader totalSegments currentSegment ++ payload) =
      some (totalSegments, currentSegment, payload.length) := by
  have hl := length_packPayloadHeader totalSegments currentSegment
  have hlen : (packPayloadHeader totalSegments currentSegment ++ payload).length =
      21 + payload.length := by simp [hl]
  have htake : (packPayloadHeader totalSegments currentSegment ++ payload).take 21 =
      packPayloadHeader totalSegments currentSegment := List.take_left' hl
  rw [clientPayloadAccept, if_neg (by omega), htake,
    unpackPayloadHeader_packPayloadHeader totalSegments currentSegment hts hcs]
  simp [MAGIC_COOKIE, MSG_TYPE_PAYLOAD, hlen]

/-! ## Server UDP segmenter (`SpeedTestServer.handle_udp_transfer`) -/

/-- Segment count
`(file_size // UDP_PAYLOAD_SIZE) + (1 if file_size % UDP_PAYLOAD_SIZE else 0)`. -/
def total_segments (file_size : ℕ) : ℕ :=
  file_size / UDP_PAYLOAD_SIZE + (if file_size % UDP_PAYLOAD_SIZE ≠ 0 then 1 else 0)

/-- Per-segment payload size
`min(UDP_PAYLOAD_SIZE, file_size - (i * UDP_PAYLOAD_SIZE))` for the 0-based loop
index `i` (the wire's `current_segment` is `i + 1`). For every index the loop
actually runs, `file_size - i * UDP_PAYLOAD_SIZE` is positive, so ℕ subtraction
agrees with Python's unbounded integers there (and for larger `i` both give an
empty payload: Python's `b"Y" * n` is empty for negative `n`). -/
def data_this_segment (file_size i : ℕ) : ℕ :=
  min UDP_PAYLOAD_SIZE (file_size - i * UDP_PAYLOAD_SIZE)

/-- Summing `min c (fs - i*c)` over the `fs/c + (1 if fs%c else 0)` chunk
indices reconstructs `fs`, for any positive chunk size `c`. -/
theorem sum_min_chunks (c : ℕ) (hc : 0 < c) :
    ∀ n fs, n = fs / c + (if fs % c ≠ 0 then 1 else 0) →
      (Finset.range n).sum (fun i => min c (fs - i * c)) = fs := by
  intro n
  induction n with
  | zero =>
    intro fs h
    have h2 := Nat.div_add_mod fs c
    have hz : fs = 0 := by
      by_cases hm : fs % c = 0
      · have hdc : fs / c = 0 := by simp [hm] at h; omega
        rw [hdc, hm] at h2
        simpa using h2.symm
      · exfalso
        simp [hm] at h
    subst hz
    simp
  | succ n ih =>
    intro fs h
    rcases le_or_lt c fs with hcf | hfc
    · obtain ⟨fs', rfl⟩ : ∃ fs', fs = fs' + c := ⟨fs - c, by omega⟩
      rw [Finset.sum_range_succ']
      have hstep : ∀ i, min c (fs' + c - (i + 1) * c) = min c (fs' - i * c) := by
        intro i
        have : fs' + c - (i + 1) * c = fs' - i * c := by
          have : (i + 1) * c = i * c + c := by ring
          omega
        rw [this]
      rw [Finset.sum_congr rfl (fun i _ => hstep i)]
      have hdiv : (fs' + c) / c = fs' / c + 1 := Nat.add_div_right fs' hc
      have hmod : (fs' + c) % c = fs' % c := Nat.add_mod_right fs' c
      have hn : n = fs' / c + (if fs' % c ≠ 0 then 1 else 0) := by
        rw [hdiv, hmod] at h
        omega
      rw [ih fs' hn]
      simp
    · have hdiv : fs / c = 0 := Nat.div_eq_of_lt hfc
      have hmod : fs % c = fs := Nat.mod_eq_of_lt hfc
      have hfs : fs ≠ 0 := by
        rw [hdiv, hmod] at h
        intro hz
        rw [hz] at h
        simp at h
      have hn : n = 0 := by
        rw [hdiv, hmod] at h
        simp [hfs] at h
        omega
      subst hn
      rw [Finset.sum_range_succ']
      simp
      omega

/-! ## Server TCP sender (`SpeedTestServer.send_tcp_data`)

The `while bytes_sent < size` loop, tracked by `remaining = size - bytes_sent`
and the 0-based index `k` of the next `sendall`. `ok k` tells whether the
`k`-th `sendall` succeeds; a failure breaks the loop without counting the
write. The returned list holds the sizes of the successful writes. -/

def sendLoop (ok : ℕ → Bool) (remaining k : ℕ) : List ℕ :=
  if remaining = 0 then []
  else
    if ok k then min 4096 remaining :: sendLoop ok (remaining - min 4096 remaining) (k + 1)
    else []
termination_by remaining
decreasing_by omega

/-- The sizes of the successful writes of `send_tcp_data(sock, size)`. A
non-positive parsed size never enters the loop (`bytes_sent < size` fails
at once), which `Int.toNat` reproduces. -/
def send_tcp_data (ok : ℕ → Bool) (size : ℤ) : List ℕ :=
  sendLoop ok size.toNat 0

theorem sendLoop_sum (ok : ℕ → Bool) (hok : ∀ j, ok j = true) :
    ∀ remaining k, (sendLoop ok remaining k).sum = remaining := by
  intro remaining
  induction remaining using Nat.strong_induction_on with
  | _ remaining ih =>
    intro k
    rw [sendLoop]
    by_cases hz : remaining = 0
    · simp [hz]
    · rw [if_neg hz, hok k, if_pos rfl, List.sum_cons,
        ih (remaining - min 4096 remaining) (by omega) (k + 1)]
      omega

theorem sendLoop_chunk_5000 (ok : ℕ → Bool) (hok : ∀ j, ok j = true) :
    sendLoop ok 5000 0 = [4096, 904] := by
  rw [sendLoop, if_neg (by norm_num), hok 0, if_pos rfl]
  norm_num
  rw [sendLoop, if_neg (by norm_num), hok 1, if_pos rfl]
  norm_num
  rw [sendLoop]
  norm_num

/-! ## Server TCP connection handler (`SpeedTestServer.handle_tcp_client`)

The accumulated request line, Python `str.strip`/`int` over the ASCII bytes the
handler reads, and the handler's three exits. -/

/-- Byte-at-a-time accumulation `while not data.endswith(b"\n")`: the prefix of
the client's byte stream up to and including the first newline, or `none` when
the peer closes the connection first. -/
def recvLine : List ℕ → Option (List ℕ)
  | [] => none
  | b :: rest => if b = 10 then some [10] else (recvLine rest).map (b :: ·)

/-- The ASCII bytes Python's `str.strip` removes (for ASCII text,
`str.isspace` holds exactly for 9–13, 28–31 and 32). -/
def isPySpace (b : ℕ) : Bool :=
  decide (b = 32 ∨ (9 ≤ b ∧ b ≤ 13) ∨ (28 ≤ b ∧ b ≤ 31))

/-- Python's `data.strip()` on ASCII bytes. -/
def pyStrip (l : List ℕ) : List ℕ :=
  ((l.dropWhile isPySpace).reverse.dropWhile isPySpace).reverse

/-- ASCII decimal digit. -/
def isDigit (b : ℕ) : Bool := decide (48 ≤ b ∧ b ≤ 57)

/-- Continuation of an integer literal after a digit: more digits, with single
underscores allowed only between digits (CPython's `int` grammar). -/
def digitTail : List ℕ → Bool
  | [] => true
  | 95 :: [] => false
  | 95 :: b :: rest => isDigit b && digitTail rest
  | b :: rest => isDigit b && digitTail rest

/-- A non-empty run of digits with single underscores between digits. -/
def digitsBody : List ℕ → Bool
  | [] => false
  | b :: rest => isDigit b && digitTail rest

/-- Numeric value of a digit run, skipping underscores. -/
def digitsValue (l : List ℕ) : ℕ :=
  (l.filter (fun b => b != 95)).foldl (fun acc b => acc * 10 + (b - 48)) 0

/-- Python's `int(data.strip().decode())` over ASCII bytes: optional sign, then digits
with single underscores between digits; anything else raises `ValueError`
(`none`). CPython would additionally accept non-ASCII Unicode digits after
UTF-8 decoding, so this model is faithful on buffers of bytes < 128, which is
the domain the theorems below quantify over. -/
def pyIntParse (l : List ℕ) : Option ℤ :=
  match pyStrip l with
  | 43 :: rest => if digitsBody rest then some (digitsValue rest : ℤ) else none
  | 45 :: rest => if digitsBody rest then some (-(digitsValue rest : ℤ)) else none
  | rest => if digitsBody rest then some (digitsValue rest : ℤ) else none

/-- Exit taken by `handle_tcp_client` for one accepted connection. -/
inductive TcpOutcome where
  /-- The peer closed before a newline arrived: the handler just returns. -/
  | earlyClose
  /-- Parsing `int(size_str)` raised `ValueError`: the handler logs and returns. -/
  | invalidSize
  /-- A size was parsed and `send_tcp_data` ran, performing these writes. -/
  | served (file_size : ℤ) (writes : List ℕ)
  deriving DecidableEq

/-- The handler `SpeedTestServer.handle_tcp_client` on the byte stream one
client sends before closing its write side. -/
def handle_tcp_client (ok : ℕ → Bool) (input : List ℕ) : TcpOutcome :=
  match recvLine input with
  | none => .earlyClose
  | some data =>
    match pyIntParse data with
    | none => .invalidSize
    | some n => .served n (send_tcp_data ok n)

/-- The accept loop `SpeedTestServer.listen_tcp`: every accepted connection is
handed to its own `handle_tcp_client`, no state shared between them. -/
def listen_tcp (ok : ℕ → Bool) (conns : List (List ℕ)) : List TcpOutcome :=
  conns.map (handle_tcp_client ok)

theorem recvLine_eq_none (input : List ℕ) (h : 10 ∉ input) : recvLine input = none := by
  induction input with
  | nil => rfl
  | cons b rest ih =>
    simp at h
    rw [recvLine, if_neg (by omega), ih (by tauto)]
    rfl

/-! ## Client discovery loop (`SpeedTestClient.listen_for_offer`)

Each iteration first compares `time.time() - start_time` against the 10-second
deadline, then performs one 0.5-second `recvfrom`. A trace records, per
iteration, the instant of the deadline check and what the receive produced.
The loop function returns `some (some r)` on a validated Offer, `some none`
when the attempt fails (deadline, or the exception path), and `none` when the
finite trace ends with the loop still waiting. -/

structure Datagram where
  senderAddr : ℕ
  payload : List ℕ
  deriving DecidableEq

inductive RecvOutcome where
  /-- Nothing arrived within the 0.5 s receive window (`socket.timeout`). -/
  | timedOut
  /-- The receive returned this datagram. -/
  | packet (d : Datagram)
  deriving DecidableEq

structure LoopEvent where
  checkTime : ℚ
  recv : RecvOutcome
  deriving DecidableEq

def listen_for_offer (startTime : ℚ) : List LoopEvent → Option (Option (ℕ × ℕ × ℕ))
  | [] => none
  | e :: rest =>
    if 10 < e.checkTime - startTime then some none
    else
      match e.recv with
      | .timedOut => listen_for_offer startTime rest
      | .packet d =>
        match clientOfferScan d.payload with
        | .keepWaiting => listen_for_offer startTime rest
        | .abort => some none
        | .accept udpPort tcpPort => some (some (d.senderAddr, udpPort, tcpPort))

/-- A datagram failing validation in one of the three ways named by the spec:
undersized buffer, bad cookie, or bad type (on an exactly-sized buffer). -/
def listedInvalid (data : List ℕ) : Prop :=
  data.length < 9 ∨
    (data.length = 9 ∧ (fromBytesBE (data.take 4) ≠ MAGIC_COOKIE ∨
      fromBytesBE ((data.drop 4).take 1) ≠ MSG_TYPE_OFFER))

/-- A loop iteration the discovery loop passes through without returning:
its deadline check is within the window and its receive either timed out or
produced a datagram that fails validation in one of the listed ways. -/
def skippable (startTime : ℚ) (e : LoopEvent) : Prop :=
  e.checkTime - startTime ≤ 10 ∧ ∀ d, e.recv = .packet d → listedInvalid d.payload

theorem clientOfferScan_of_listedInvalid (data : List ℕ) (h : listedInvalid data) :
    clientOfferScan data = .keepWaiting := by
  rcases h with h | ⟨hlen, hbad⟩
  · rw [clientOfferScan, if_neg (by omega)]
  · rw [clientOfferScan, if_pos (by omega), unpackOffer, if_pos hlen]
    have : ¬(fromBytesBE (data.take 4) = MAGIC_COOKIE ∧
        fromBytesBE ((data.drop 4).take 1) = MSG_TYPE_OFFER) := by tauto
    simp only [this, if_false]

theorem listen_for_offer_skips (startTime : ℚ) (pre : List LoopEvent)
    (hpre : ∀ e ∈ pre, skippable startTime e) (rest : List LoopEvent) :
    listen_for_offer startTime (pre ++ rest) = listen_for_offer startTime rest := by
  induction pre with
  | nil => rfl
  | cons e pre ih =>
    have he := hpre e (by simp)
    have hrest : ∀ e' ∈ pre, skippable startTime e' := fun e' h' => hpre e' (by simp [h'])
    rw [List.cons_append, listen_for_offer, if_neg (by exact not_lt.2 he.1)]
    rcases hrecv : e.recv with _ | d
    · exact ih hrest
    · dsimp only
      rw [clientOfferScan_of_listedInvalid d.payload (he.2 d hrecv)]
      exact ih hrest

/-! ## Client UDP transfer loop (`SpeedTestClient.handle_udp_transfer`)

The receive loop's mutable locals, one loop step per trace event, and the
loop runner. A `packet` event carries the instant `time.time()` would return
right after a successful `recvfrom` (the value stored into `last_data_time`
when the datagram validates); a `timedOut` event carries the instant of the
`time.time() - last_data_time` check inside the `except socket.timeout`
branch. `udpTransferLoop` returns `some finalState` when the loop breaks
within the trace and `none` when the trace ends with the loop still running. -/

structure UdpTransferState where
  total_bytes : ℕ
  total_segments : ℕ
  segments_received : ℕ
  last_data_time : ℚ
  deriving DecidableEq

inductive UdpEvent where
  | packet (recvTime : ℚ) (data : List ℕ)
  | timedOut (checkTime : ℚ)
  deriving DecidableEq

/-- One iteration of the receive loop: the new state, and whether the loop
breaks. Only a quiet-period check can break; datagrams — valid or not —
never do. -/
def udpTransferStep (s : UdpTransferState) : UdpEvent → UdpTransferState × Bool
  | .packet recvTime data =>
    match clientPayloadAccept data with
    | some (totalSeg, _currentSeg, payloadLen) =>
      (⟨s.total_bytes + payloadLen, totalSeg, s.segments_received + 1, recvTime⟩, false)
    | none => (s, false)
  | .timedOut checkTime =>
    (s, decide (UDP_TRANSFER_TIMEOUT < checkTime - s.last_data_time))

def udpTransferLoop (s : UdpTransferState) : List UdpEvent → Option UdpTransferState
  | [] => none
  | e :: rest =>
    if (udpTransferStep s e).2 then some (udpTransferStep s e).1
    else udpTransferLoop (udpTransferStep s e).1 rest

/-! ## Per-transfer statistics -/

/-- Client success-rate computation: `(segments_received / total_segments) * 100`
when any segment was seen, `0.0` otherwise. -/
def success_rate (total_segments segments_received : ℕ) : ℚ :=
  if 0 < total_segments then ((segments_received : ℚ) / (total_segments : ℚ)) * 100
  else 0

/-- Duration flooring `max(end_time - start_time, 1e-6)` (the float `1e-6`
stands for the positive epsilon; its exact value only matters for positivity). -/
def duration_floor (elapsed : ℚ) : ℚ := max elapsed (1 / 1000000)

/-- Throughput `(received * 8) / duration` in bits per second. -/
def speed_bps (receivedBytes : ℕ) (duration : ℚ) : ℚ :=
  ((receivedBytes : ℚ) * 8) / duration

/-! ## Claim theorems -/

/-- C1: for every requested `file_size > 0` and the fixed chunk size 1024, the
server's UDP segmenter computes `total_segments = ceil(file_size / 1024)`, each
1-based segment `i` carries `min(1024, file_size - (i-1)*1024)` payload bytes,
the per-segment payload lengths sum to `file_size`, and the last segment
carries `file_size - (total_segments-1)*1024` bytes unless that remainder is 0,
in which case it carries a full chunk. -/
theorem udp_segmenter_spec (file_size : ℕ) (hpos : 0 < file_size) :
    total_segments file_size = (file_size + UDP_PAYLOAD_SIZE - 1) / UDP_PAYLOAD_SIZE ∧
    (∀ i, 1 ≤ i → i ≤ total_segments file_size →
      data_this_segment file_size (i - 1) =
        min UDP_PAYLOAD_SIZE (file_size - (i - 1) * UDP_PAYLOAD_SIZE)) ∧
    (Finset.range (total_segments file_size)).sum (data_this_segment file_size) = file_size ∧
    (file_size - (total_segments file_size - 1) * UDP_PAYLOAD_SIZE ≠ 0 →
      data_this_segment file_size (total_segments file_size - 1) =
        file_size - (total_segments file_size - 1) * UDP_PAYLOAD_SIZE) ∧
    (file_size - (total_segments file_size - 1) * UDP_PAYLOAD_SIZE = 0 →
      data_this_segment file_size (total_segments file_size - 1) = UDP_PAYLOAD_SIZE) := by
  refine ⟨?_, fun i _ _ => rfl, ?_, ?_, ?_⟩
  · simp only [total_segments, UDP_PAYLOAD_SIZE]
    by_cases hm : file_size % 1024 = 0 <;> simp only [hm, ne_eq, not_true_eq_false,
      not_false_eq_true, if_true, if_false, ite_true, ite_false] <;> omega
  · have h := sum_min_chunks 1024 (by norm_num) (total_segments file_size) file_size
      (by simp [total_segments, UDP_PAYLOAD_SIZE])
    simpa [data_this_segment, UDP_PAYLOAD_SIZE] using h
  · simp only [data_this_segment, total_segments, UDP_PAYLOAD_SIZE]
    by_cases hm : file_size % 1024 = 0 <;> simp only [hm, ne_eq, not_true_eq_false,
      not_false_eq_true, if_true, if_false, ite_true, ite_false] <;> omega
  · simp only [data_this_segment, total_segments, UDP_PAYLOAD_SIZE]
    by_cases hm : file_size % 1024 = 0 <;> simp only [hm, ne_eq, not_true_eq_false,
      not_false_eq_true, if_true, if_false, ite_true, ite_false] <;> omega

theorem udp_segmenter_spec_witness :
    0 < 2500 ∧
    (total_segments 2500 = (2500 + UDP_PAYLOAD_SIZE - 1) / UDP_PAYLOAD_SIZE ∧
    (∀ i, 1 ≤ i → i ≤ total_segments 2500 →
      data_this_segment 2500 (i - 1) =
        min UDP_PAYLOAD_SIZE (2500 - (i - 1) * UDP_PAYLOAD_SIZE)) ∧
    (Finset.range (total_segments 2500)).sum (data_this_segment 2500) = 2500 ∧
    (2500 - (total_segments 2500 - 1) * UDP_PAYLOAD_SIZE ≠ 0 →
      data_this_segment 2500 (total_segments 2500 - 1) =
        2500 - (total_segments 2500 - 1) * UDP_PAYLOAD_SIZE) ∧
    (2500 - (total_segments 2500 - 1) * UDP_PAYLOAD_SIZE = 0 →
      data_this_segment 2500 (total_segments 2500 - 1) = UDP_PAYLOAD_SIZE)) :=
  ⟨by norm_num, udp_segmenter_spec 2500 (by norm_num)⟩

/-- C4: encoding an Offer, Request, or PayloadSegment into its fixed big-endian
layout (9-, 13-, 21-byte headers) and decoding the resulting bytes yields the
original field values exactly; for a payload datagram the trailing data is
recovered as well. -/
theorem codec_roundtrip_spec (udpPort tcpPort fileSize totalSeg currentSeg : ℕ)
    (payload : List ℕ) (hu : udpPort < 2 ^ 16) (ht : tcpPort < 2 ^ 16)
    (hf : fileSize < 2 ^ 64) (hts : totalSeg < 2 ^ 64) (hcs : currentSeg < 2 ^ 64) :
    unpackOffer (packOffer udpPort tcpPort) =
      some (MAGIC_COOKIE, MSG_TYPE_OFFER, udpPort, tcpPort) ∧
    unpackRequest (packRequest fileSize) =
      some (MAGIC_COOKIE, MSG_TYPE_REQUEST, fileSize) ∧
    unpackPayloadHeader (packPayloadHeader totalSeg currentSeg) =
      some (MAGIC_COOKIE, MSG_TYPE_PAYLOAD, totalSeg, currentSeg) ∧
    clientPayloadAccept (packPayloadHeader totalSeg currentSeg ++ payload) =
      some (totalSeg, currentSeg, payload.length) ∧
    (packPayloadHeader totalSeg currentSeg ++ payload).drop 21 = payload :=
  ⟨unpackOffer_packOffer udpPort tcpPort hu ht,
   unpackRequest_packRequest fileSize hf,
   unpackPayloadHeader_packPayloadHeader totalSeg currentSeg hts hcs,
   clientPayloadAccept_pack totalSeg currentSeg hts hcs payload,
   List.drop_left' (length_packPayloadHeader totalSeg currentSeg)⟩

theorem codec_roundtrip_spec_witness :
    unpackOffer (packOffer 30000 40000) =
      some (MAGIC_COOKIE, MSG_TYPE_OFFER, 30000, 40000) ∧
    unpackRequest (packRequest 2500) = some (MAGIC_COOKIE, MSG_TYPE_REQUEST, 2500) ∧
    unpackPayloadHeader (packPayloadHeader 3 2) =
      some (MAGIC_COOKIE, MSG_TYPE_PAYLOAD, 3, 2) ∧
    clientPayloadAccept (packPayloadHeader 3 2 ++ [89]) = some (3, 2, [89].length) ∧
    (packPayloadHeader 3 2 ++ [89]).drop 21 = [89] :=
  codec_roundtrip_spec 30000 40000 2500 3 2 [89] (by norm_num) (by norm_num)
    (by norm_num) (by norm_num) (by norm_num)

/-- C5: for every successfully parsed requested size, the server streams
exactly that many filler bytes in chunks of `min(4096, bytesRemaining)`,
stopping early only on a send error; for a requested size of 5000 it performs
exactly two writes, of 4096 and 904 bytes. -/
theorem tcp_stream_chunks_spec (ok : ℕ → Bool) (hok : ∀ j, ok j = true) :
    (∀ size : ℕ, (send_tcp_data ok (size : ℤ)).sum = size) ∧
    send_tcp_data ok 5000 = [4096, 904] := by
  constructor
  · intro size
    rw [send_tcp_data, Int.toNat_natCast]
    exact sendLoop_sum ok hok size 0
  · rw [send_tcp_data, show ((5000 : ℤ)).toNat = 5000 from rfl]
    exact sendLoop_chunk_5000 ok hok

theorem tcp_stream_chunks_spec_witness :
    (send_tcp_data (fun _ => true) ((5000 : ℕ) : ℤ)).sum = 5000 ∧
    send_tcp_data (fun _ => true) 5000 = [4096, 904] :=
  ⟨(tcp_stream_chunks_spec (fun _ => true) (fun _ => rfl)).1 5000,
   (tcp_stream_chunks_spec (fun _ => true) (fun _ => rfl)).2⟩

/-- C6: the reported success rate is `segments_received / total_segments * 100`
when `total_segments > 0` and `0` when `total_segments = 0`; in particular
`total_segments = 10` with `segments_received = 7` yields 70.0 %. -/
theorem success_rate_spec :
    success_rate 10 7 = 70 ∧
    (∀ segments_received, success_rate 0 segments_received = 0) ∧
    (∀ total segments_received, 0 < total →
      success_rate total segments_received =
        ((segments_received : ℚ) / (total : ℚ)) * 100) := by
  refine ⟨by norm_num [success_rate], fun s => by simp [success_rate],
    fun t s ht => ?_⟩
  rw [success_rate, if_pos (by exact_mod_cast ht)]

theorem success_rate_spec_witness :
    success_rate 10 7 = 70 ∧ success_rate 0 3 = 0 ∧
    success_rate 10 7 = ((7 : ℚ) / (10 : ℚ)) * 100 :=
  ⟨success_rate_spec.1, success_rate_spec.2.1 3, success_rate_spec.2.2 10 7 (by norm_num)⟩

/-- C7: throughput is `receivedBytes * 8 / duration` bits per second with the
duration floored to a positive epsilon, so the division is always over a
positive duration; 1,000,000 bytes over 2.0 s yield 4,000,000 bits/second. -/
theorem throughput_spec :
    (∀ elapsed : ℚ, 0 < duration_floor elapsed) ∧
    speed_bps 1000000 (duration_floor 2) = 4000000 := by
  constructor
  · intro elapsed
    exact lt_of_lt_of_le (by norm_num) (le_max_right elapsed (1 / 1000000))
  · rw [duration_floor, max_eq_left (by norm_num)]
    norm_num [speed_bps]

theorem throughput_spec_witness :
    0 < duration_floor 5 ∧ speed_bps 1000000 (duration_floor 2) = 4000000 :=
  ⟨throughput_spec.1 5, throughput_spec.2⟩

/-- C2: during a discovery attempt, every datagram failing validation in one of
the listed ways (bad cookie, bad type, undersized buffer) is ignored and the
loop keeps waiting; with only such traffic the attempt returns failure exactly
when a deadline check falls outside the 10-second window; and the first
validated Offer makes the attempt return the sender's address and the two
advertised ports immediately. -/
theorem discovery_filter_spec (startTime : ℚ) (pre : List LoopEvent)
    (hpre : ∀ e ∈ pre, skippable startTime e) :
    listen_for_offer startTime pre = none ∧
    (∀ rest e, 10 < e.checkTime - startTime →
      listen_for_offer startTime (pre ++ e :: rest) = some none) ∧
    (∀ rest t d udpPort tcpPort, t - startTime ≤ 10 →
      clientOfferScan d.payload = .accept udpPort tcpPort →
      listen_for_offer startTime (pre ++ ⟨t, .packet d⟩ :: rest) =
        some (some (d.senderAddr, udpPort, tcpPort))) := by
  refine ⟨?_, ?_, ?_⟩
  · have h := listen_for_offer_skips startTime pre hpre []
    simpa using h
  · intro rest e he
    rw [listen_for_offer_skips startTime pre hpre, listen_for_offer, if_pos he]
  · intro rest t d udpPort tcpPort ht hscan
    rw [listen_for_offer_skips startTime pre hpre, listen_for_offer,
      if_neg (by exact not_lt.2 ht)]
    dsimp only
    rw [hscan]

theorem discovery_filter_spec_witness :
    listen_for_offer 0
      ([⟨1, .timedOut⟩, ⟨2, .packet ⟨7, [0, 0, 0, 0]⟩⟩] ++
        ⟨3, .packet ⟨9, packOffer 5 6⟩⟩ :: []) = some (some (9, 5, 6)) := by
  have hpreW : ∀ e ∈ ([⟨1, .timedOut⟩, ⟨2, .packet ⟨7, [0, 0, 0, 0]⟩⟩] : List LoopEvent),
      skippable 0 e := by
    intro e he
    simp only [List.mem_cons, List.not_mem_nil, or_false] at he
    rcases he with rfl | rfl
    · exact ⟨by norm_num, fun d hd => by cases hd⟩
    · refine ⟨by norm_num, fun d hd => ?_⟩
      cases hd
      exact Or.inl (by decide)
  exact (discovery_filter_spec 0 _ hpreW).2.2 [] 3 ⟨9, packOffer 5 6⟩ 5 6
    (by norm_num) (by decide)

/-- C3: a datagram whose declared magic-cookie field (first four bytes, read
big-endian) differs from 0xABCDDCBA is treated as not matching at every
receive site — the server spawns no UDP transfer for it, the client's
discovery loop never accepts it as an Offer, and the client's UDP receive
loop rejects it as a PayloadSegment — regardless of its other fields. -/
theorem cookie_mismatch_spec (data : List ℕ)
    (h : fromBytesBE (data.take 4) ≠ MAGIC_COOKIE) :
    serverUdpRequestAccept data = none ∧
    (∀ udpPort tcpPort, clientOfferScan data ≠ .accept udpPort tcpPort) ∧
    clientPayloadAccept data = none := by
  refine ⟨?_, ?_, ?_⟩
  · by_cases h13 : data.length = 13
    · simp [serverUdpRequestAccept, unpackRequest, h13, h]
    · by_cases hge : 13 ≤ data.length
      · simp [serverUdpRequestAccept, unpackRequest, h13, hge]
      · simp [serverUdpRequestAccept, hge]
  · intro udpPort tcpPort
    by_cases h9 : data.length = 9
    · simp [clientOfferScan, unpackOffer, h9, h]
    · by_cases hge : 9 ≤ data.length
      · simp [clientOfferScan, unpackOffer, h9, hge]
      · simp [clientOfferScan, hge]
  · by_cases h21 : data.length < 21
    · simp [clientPayloadAccept, h21]
    · have hlen : (data.take 21).length = 21 := by
        rw [List.length_take]
        omega
      have htt : (data.take 21).take 4 = data.take 4 := by
        rw [List.take_take]
        norm_num
      simp [clientPayloadAccept, h21, unpackPayloadHeader, hlen, htt, h]

theorem cookie_mismatch_spec_witness :
    serverUdpRequestAccept (List.replicate 21 0) = none ∧
    clientOfferScan (List.replicate 21 0) ≠ .accept 1 2 ∧
    clientPayloadAccept (List.replicate 21 0) = none :=
  ⟨(cookie_mismatch_spec (List.replicate 21 0) (by decide)).1,
   (cookie_mismatch_spec (List.replicate 21 0) (by decide)).2.1 1 2,
   (cookie_mismatch_spec (List.replicate 21 0) (by decide)).2.2⟩

/-- C8: a datagram that fails PayloadSegment validation leaves the loop state
— including the quiet-period clock `last_data_time` — unchanged and never
breaks the loop; a `socket.timeout` check breaks the loop exactly when the
time since the last valid receipt exceeds the 1-second timeout; and whenever
the loop terminates, it does so at a timeout event whose check exceeded the
quiet period measured from the final state's `last_data_time`. -/
theorem udp_quiet_period_spec :
    (∀ s recvTime data, clientPayloadAccept data = none →
      udpTransferStep s (.packet recvTime data) = (s, false)) ∧
    (∀ s checkTime, (udpTransferStep s (.timedOut checkTime)).1 = s ∧
      ((udpTransferStep s (.timedOut checkTime)).2 = true ↔
        UDP_TRANSFER_TIMEOUT < checkTime - s.last_data_time)) ∧
    (∀ events s s', udpTransferLoop s events = some s' →
      ∃ pre t post, events = pre ++ .timedOut t :: post ∧
        UDP_TRANSFER_TIMEOUT < t - s'.last_data_time) := by
  refine ⟨fun s recvTime data h => by simp [udpTransferStep, h],
    fun s checkTime => ⟨rfl, by simp [udpTransferStep]⟩, ?_⟩
  intro events
  induction events with
  | nil => intro s s' h; simp [udpTransferLoop] at h
  | cons e rest ih =>
    intro s s' h
    rw [udpTransferLoop] at h
    rcases e with ⟨t, data⟩ | t
    · have hbrk : (udpTransferStep s (.packet t data)).2 = false := by
        rcases hacc : clientPayloadAccept data with _ | ⟨⟨ts, cs, len⟩⟩ <;>
          simp [udpTransferStep, hacc]
      rw [hbrk] at h
      simp only [Bool.false_eq_true, if_false] at h
      obtain ⟨pre, t', post, he, hq⟩ := ih _ _ h
      exact ⟨.packet t data :: pre, t', post, by simp [he], hq⟩
    · by_cases hb : UDP_TRANSFER_TIMEOUT < t - s.last_data_time
      · rw [show (udpTransferStep s (.timedOut t)).2 = true by simp [udpTransferStep, hb],
          if_pos rfl] at h
        have hs : s' = s := by
          have : (udpTransferStep s (.timedOut t)).1 = s := rfl
          rw [this] at h
          exact (Option.some.injEq _ _ ▸ h).symm
        exact ⟨[], t, rest, rfl, by rw [hs]; exact hb⟩
      · rw [show (udpTransferStep s (.timedOut t)).2 = false by
          simp [udpTransferStep, hb]] at h
        simp only [Bool.false_eq_true, if_false] at h
        have hstate : (udpTransferStep s (.timedOut t)).1 = s := rfl
        rw [hstate] at h
        obtain ⟨pre, t', post, he, hq⟩ := ih _ _ h
        exact ⟨.timedOut t :: pre, t', post, by simp [he], hq⟩

theorem udp_quiet_period_spec_witness :
    udpTransferStep ⟨0, 0, 0, 0⟩ (.packet 1 [1, 2, 3]) = (⟨0, 0, 0, 0⟩, false) ∧
    ((udpTransferStep ⟨0, 0, 0, 0⟩ (.timedOut 2)).2 = true ↔
      UDP_TRANSFER_TIMEOUT < 2 - (0 : ℚ)) ∧
    (∃ pre t post, [UdpEvent.timedOut 2] = pre ++ .timedOut t :: post ∧
      UDP_TRANSFER_TIMEOUT < t - (UdpTransferState.mk 0 0 0 0).last_data_time) :=
  ⟨udp_quiet_period_spec.1 ⟨0, 0, 0, 0⟩ 1 [1, 2, 3] (by decide),
   (udp_quiet_period_spec.2.1 ⟨0, 0, 0, 0⟩ 2).2,
   udp_quiet_period_spec.2.2 [.timedOut 2] ⟨0, 0, 0, 0⟩ ⟨0, 0, 0, 0⟩
     (by norm_num [udpTransferLoop, udpTransferStep, UDP_TRANSFER_TIMEOUT])⟩

/-- C9: on the server's TCP path, a connection closed before a line terminator
arrives ends the handler cleanly with nothing sent, an accumulated size string
that fails to parse as an integer aborts only with `invalidSize` (nothing
sent), and the accept loop handles every connection independently — the
outcome of each accepted connection is a function of that connection alone.
The parse conjunct is scoped to ASCII byte streams, where the `int`/`decode`
model is faithful. -/
theorem tcp_error_isolation_spec (ok : ℕ → Bool) :
    (∀ input, 10 ∉ input → handle_tcp_client ok input = .earlyClose) ∧
    (∀ input line, (∀ b ∈ input, b < 128) → recvLine input = some line →
      pyIntParse line = none → handle_tcp_client ok input = .invalidSize) ∧
    (∀ pre post conn, listen_tcp ok (pre ++ conn :: post) =
      listen_tcp ok pre ++ handle_tcp_client ok conn :: listen_tcp ok post) := by
  refine ⟨fun input h => ?_, fun input line _ h1 h2 => ?_, fun pre post conn => ?_⟩
  · simp [handle_tcp_client, recvLine_eq_none input h]
  · simp [handle_tcp_client, h1, h2]
  · simp [listen_tcp]

theorem tcp_error_isolation_spec_witness :
    handle_tcp_client (fun _ => true) [53, 48] = .earlyClose ∧
    handle_tcp_client (fun _ => true) [120, 10] = .invalidSize ∧
    listen_tcp (fun _ => true) ([[53, 48]] ++ [120, 10] :: []) =
      listen_tcp (fun _ => true) [[53, 48]] ++
        handle_tcp_client (fun _ => true) [120, 10] :: listen_tcp (fun _ => true) [] :=
  ⟨(tcp_error_isolation_spec (fun _ => true)).1 [53, 48] (by decide),
   (tcp_error_isolation_spec (fun _ => true)).2.1 [120, 10] [120, 10] (by decide)
     (by decide) (by decide),
   (tcp_error_isolation_spec (fun _ => true)).2.2 [[53, 48]] [] [120, 10]⟩

/-- C10: the client's UDP receiver increments `segments_received` for every
valid PayloadSegment — duplicates included — and overwrites `total_segments`
with the value in the segment just received; consequently a trace in which one
valid segment of a 1-segment transfer arrives twice ends with
`segments_received = 2 > total_segments = 1` and a reported success rate of
200 % > 100 %. -/
theorem udp_duplicate_overcount_spec :
    (∀ s recvTime data totalSeg currentSeg payloadLen,
      clientPayloadAccept data = some (totalSeg, currentSeg, payloadLen) →
      udpTransferStep s (.packet recvTime data) =
        (⟨s.total_bytes + payloadLen, totalSeg, s.segments_received + 1, recvTime⟩,
          false)) ∧
    udpTransferLoop ⟨0, 0, 0, 0⟩
      [.packet 1 (packPayloadHeader 1 1 ++ List.replicate 10 89),
       .packet 2 (packPayloadHeader 1 1 ++ List.replicate 10 89),
       .timedOut 4] = some ⟨20, 1, 2, 2⟩ ∧
    success_rate 1 2 = 200 ∧ 100 < success_rate 1 2 := by
  have hacc : clientPayloadAccept (packPayloadHeader 1 1 ++ List.replicate 10 89) =
      some (1, 1, 10) := by
    have h := clientPayloadAccept_pack 1 1 (by norm_num) (by norm_num)
      (List.replicate 10 89)
    simpa using h
  refine ⟨fun s recvTime data ts cs len h => by simp [udpTransferStep, h], ?_, ?_, ?_⟩
  · have h1 : udpTransferStep ⟨0, 0, 0, 0⟩
        (.packet 1 (packPayloadHeader 1 1 ++ List.replicate 10 89)) =
        (⟨10, 1, 1, 1⟩, false) := by
      simp only [udpTransferStep, hacc]
    have h2 : udpTransferStep ⟨10, 1, 1, 1⟩
        (.packet 2 (packPayloadHeader 1 1 ++ List.replicate 10 89)) =
        (⟨20, 1, 2, 2⟩, false) := by
      simp only [udpTransferStep, hacc]
    have h3 : udpTransferStep ⟨20, 1, 2, 2⟩ (.timedOut 4) = (⟨20, 1, 2, 2⟩, true) := by
      norm_num [udpTransferStep, UDP_TRANSFER_TIMEOUT]
    simp only [udpTransferLoop, h1, h2, h3]
    norm_num
  · norm_num [success_rate]
  · norm_num [success_rate]

theorem udp_duplicate_overcount_spec_witness :
    udpTransferStep ⟨0, 0, 0, 0⟩
      (.packet 1 (packPayloadHeader 1 1 ++ List.replicate 10 89)) =
      (⟨0 + 10, 1, 0 + 1, 1⟩, false) := by
  have hacc : clientPayloadAccept (packPayloadHeader 1 1 ++ List.replicate 10 89) =
      some (1, 1, 10) := by
    have h := clientPayloadAccept_pack 1 1 (by norm_num) (by norm_num)
      (List.replicate 10 89)
    simpa using h
  exact udp_duplicate_overcount_spec.1 ⟨0, 0, 0, 0⟩ 1
    (packPayloadHeader 1 1 ++ List.replicate 10 89) 1 1 10 hacc

end SpeedTest
